import Mathlib

/-!
Verification development for the `occ-formal-spec` repository.

Conventions of the shallow embedding: JavaScript numbers are modelled as
rationals (ℚ); a value that may be `undefined`/missing is an `Option`;
calendar dates are day numbers (ℕ).  The dashboard functions are
translated from `src/app/app.js` (and its older copy
`src/unnamed/part_000`).  The event-log closure accounting engine
(`occ_harness.py`, invoked by `src/tests/bpi_2013/run.sh` but not
present in the repository) is modelled from the spec where the doc
comment says so.
-/

namespace OCC

/-- One point of the dashboard sample series: exactly the eight fields
that `loadSampleData` in `src/app/app.js` passes to
`computeSeriesMetrics`.  Fields the code reads through `??` or a
truthiness test are `Option ℚ` (`none` = absent/undefined). -/
structure Point where
  lambda : ℚ
  mu_a : ℚ
  q : ℚ
  backlog : ℚ
  week : String
  drift : Option ℚ
  b_req : Option ℚ
  capacity : Option ℚ
  deriving DecidableEq, Inhabited

/-- Output of `computeSeriesMetrics`: the JS spread `{...point, mu_d,
return_work, c_eff, mu_bar, exceedance}` is modelled by the `base`
field carrying the input point plus the five derived fields. -/
structure MetricPoint where
  base : Point
  mu_d : ℚ
  return_work : ℚ
  c_eff : ℚ
  mu_bar : ℚ
  exceedance : ℚ
  deriving DecidableEq, Inhabited

/-- `computeSeriesMetrics` from `src/app/app.js` lines 19–34.
`point.b_req ? cEff / point.b_req : 0` tests JS truthiness, so an
absent or zero `b_req` selects the 0 branch; `x ?? 0` is
`Option.getD x 0`. -/
def computeSeriesMetrics (point : Point) : MetricPoint :=
  let durable := point.mu_a * point.q
  let returnWork := point.mu_a - durable
  let cEff := max 0 (point.capacity.getD 0 - point.drift.getD 0)
  let bound :=
    match point.b_req with
    | none => 0
    | some b => if b = 0 then 0 else cEff / b
  let exceedance :=
    max 0 (point.drift.getD 0 + point.lambda * point.b_req.getD 0 - point.capacity.getD 0)
  { base := point, mu_d := durable, return_work := returnWork,
    c_eff := cEff, mu_bar := bound, exceedance := exceedance }

/-- Output element of `buildDerivedSeries`: the JS spread `{...point,
mu_d_exit, cohort_week}` over an already-enriched point. -/
structure DerivedPoint where
  base : MetricPoint
  mu_d_exit : Option ℚ
  cohort_week : Option String
  deriving DecidableEq, Inhabited

/-- The lag in periods applied by `buildDerivedSeries`
(`src/app/app.js` line 79): `Math.max(1, Math.ceil(horizonDays /
periodDays))`. -/
def lagPeriodsOf (horizonDays periodDays : ℚ) : ℕ :=
  (max 1 ⌈horizonDays / periodDays⌉).toNat

/-- Body of the `rawSeries.map((point, idx) => ...)` callback in
`buildDerivedSeries` (lines 82–91).  `exitIdx = idx - lagPeriods` is
nonnegative exactly when `lag ≤ idx`; `rawSeries[exitIdx]` is modelled
by `getD` (the index is in bounds whenever it is used). -/
def derivePoint (rawSeries : List MetricPoint) (lag idx : ℕ) : DerivedPoint :=
  { base := rawSeries.getD idx default
    mu_d_exit :=
      if lag ≤ idx then some ((rawSeries.getD (idx - lag) default).mu_d) else none
    cohort_week :=
      if lag ≤ idx then some ((rawSeries.getD (idx - lag) default).base.week) else none }

/-- `buildDerivedSeries` from `src/app/app.js` lines 77–92.  The guard
`!rawSeries.length || !periodDays || periodDays <= 0` collapses, over
ℚ, to "empty series or `periodDays ≤ 0`" (JS falsy 0 is subsumed by
`≤ 0`). -/
def buildDerivedSeries (rawSeries : List MetricPoint) (horizonDays periodDays : ℚ) :
    List DerivedPoint :=
  if rawSeries.length = 0 ∨ periodDays ≤ 0 then []
  else
    (List.range rawSeries.length).map
      (derivePoint rawSeries (lagPeriodsOf horizonDays periodDays))

/-- A JavaScript value reaching the `formatNumber` display boundary.
`strNum q` is a string whose numeric conversion is the finite number
`q` under both `Number` and `parseFloat`; `strBad` is a string neither
conversion can parse (both give NaN). -/
inductive JSVal where
  | num (q : ℚ)
  | nanV
  | infV
  | ninfV
  | nullV
  | undefV
  | strNum (q : ℚ)
  | strBad
  deriving DecidableEq

/-- Result of a JS numeric conversion: a finite number, NaN, or
±Infinity. -/
inductive NumV where
  | fin (q : ℚ)
  | nanR
  | infR
  | ninfR
  deriving DecidableEq

/-- The JS `Number(value)` conversion: `Number(null) = 0`,
`Number(undefined) = NaN`, a non-numeric string gives NaN. -/
def jsNumber : JSVal → NumV
  | .num q => .fin q
  | .nanV => .nanR
  | .infV => .infR
  | .ninfV => .ninfR
  | .nullV => .fin 0
  | .undefV => .nanR
  | .strNum q => .fin q
  | .strBad => .nanR

/-- The JS `Number.parseFloat(value)` conversion: unlike `Number`, it
stringifies its argument first, so `null` and `undefined` become the
unparseable strings "null"/"undefined" and yield NaN. -/
def jsParseFloat : JSVal → NumV
  | .num q => .fin q
  | .nanV => .nanR
  | .infV => .infR
  | .ninfV => .ninfR
  | .nullV => .nanR
  | .undefV => .nanR
  | .strNum q => .fin q
  | .strBad => .nanR

/-- `Number.isFinite`. -/
def isFiniteN : NumV → Bool
  | .fin _ => true
  | _ => false

/-- `n.toFixed(1)` — every `formatNumber` call site in the repository
passes `digits = 1` (the default).  A finite rational is rounded half
away from zero to one decimal place; the JS non-finite renderings are
the strings "NaN", "Infinity", "-Infinity". -/
def toFixed1 : NumV → String
  | .nanR => "NaN"
  | .infR => "Infinity"
  | .ninfR => "-Infinity"
  | .fin q =>
    let n : ℤ := if q < 0 then -⌊-q * 10 + 1 / 2⌋ else ⌊q * 10 + 1 / 2⌋
    let a := n.natAbs
    (if n < 0 then "-" else "") ++ toString (a / 10) ++ "." ++ toString (a % 10)

/-- Whether a string ends in ".0" — the only way the regex `\.0+$` can
match a one-decimal `toFixed` output.  Stated over the character list
so the kernel can evaluate it. -/
def endsWithDotZero (s : String) : Bool :=
  decide (s.data.reverse.take 2 = ['0', '.'])

/-- Remove the last two characters of a string. -/
def dropLast2 (s : String) : String :=
  String.mk (s.data.take (s.data.length - 2))

/-- The `.replace` step of the new `formatNumber`
(`src/app/app.js` line 16): a trailing ".0" is replaced by the empty
string. -/
def stripDotZero (s : String) : String :=
  if endsWithDotZero s then dropLast2 s else s

/-- The corresponding `.replace` of the older copy in
`src/unnamed/part_000`, whose replacement text is '.0': on a
one-decimal string it rewrites a trailing ".0" to ".0". -/
def replaceDotZeroOld (s : String) : String :=
  if endsWithDotZero s then dropLast2 s ++ ".0" else s

/-- `formatNumber` from `src/app/app.js` lines 12–17: convert with
`Number`, return '—' unless the result is finite, else render with
`toFixed(1)` and strip a trailing ".0". -/
def formatNumber (value : JSVal) : String :=
  let n := jsNumber value
  if isFiniteN n then stripDotZero (toFixed1 n) else "—"

/-- `formatNumber` from the older copy `src/unnamed/part_000` lines
8–10: `Number.parseFloat(value).toFixed(digits).replace(/\.0+$/,
'.0')`, with no finiteness guard. -/
def formatNumberOld (value : JSVal) : String :=
  replaceDotZeroOld (toFixed1 (jsParseFloat value))

/-- `state.horizonDays = payload.horizon_days || 30`
(`src/app/app.js` line 231).  JS `||` takes the fallback when the left
side is absent (`none`) or zero (falsy). -/
def loadHorizonDays (payload_horizon_days : Option ℚ) : ℚ :=
  match payload_horizon_days with
  | none => 30
  | some v => if v = 0 then 30 else v

/-- `Number.parseFloat(horizon.value) || state.horizonDays`
(`src/app/app.js` line 257); `none` models a field that does not parse
(NaN, falsy). -/
def usedHorizonDays (parsed : Option ℚ) (stateHorizonDays : ℚ) : ℚ :=
  match parsed with
  | none => stateHorizonDays
  | some v => if v = 0 then stateHorizonDays else v

/-- `Number.parseFloat(periodDays.value) || 1` (`src/app/app.js` line
258). -/
def usedPeriodDays (parsed : Option ℚ) : ℚ :=
  match parsed with
  | none => 1
  | some v => if v = 0 then 1 else v

/-- Outputs of the pure computation inside `updateSummaryFromInputs`
(`src/app/app.js` lines 44–48). -/
structure SummaryOut where
  c_eff : ℚ
  bound : ℚ
  mu_d : ℚ
  return_work : ℚ
  exceedance : ℚ
  deriving DecidableEq

/-- The arithmetic core of `updateSummaryFromInputs` (lines 44–48);
the six arguments are the parsed form fields after their `|| fallback`
defaults. -/
def updateSummaryCore (capacity drift bReq attempted durability lambda : ℚ) : SummaryOut :=
  let cEff := max 0 (capacity - drift)
  let bound := if bReq > 0 then cEff / bReq else 0
  let muD := attempted * durability
  { c_eff := cEff, bound := bound, mu_d := muD,
    return_work := attempted - muD,
    exceedance := max 0 (drift + lambda * bReq - capacity) }

/-- Modelled from the spec: RawEvent (§3) — one ledger row of the
engine `occ_harness.py`, which is invoked by
`src/tests/bpi_2013/run.sh` but not present in the repository. -/
inductive EventType where
  | accepted
  | completed
  deriving DecidableEq, Inhabited

/-- Modelled from the spec: a ledger row with entity id, event type and
day-granularity date (§3 RawEvent). -/
structure RawEvent where
  entity_id : String
  event_type : EventType
  event_date : ℕ
  deriving DecidableEq, Inhabited

/-- Modelled from the spec: the kind of a ClassifiedEvent (§3). -/
inductive Kind where
  | arrival
  | attempt
  | reopen
  deriving DecidableEq, Inhabited

/-- Modelled from the spec: ClassifiedEvent (§3), output of the entity
state machine of the missing engine. -/
structure ClassifiedEvent where
  entity_id : String
  kind : Kind
  date : ℕ
  deriving DecidableEq, Inhabited

/-- Modelled from the spec: the three-way durability verdict of the
Durability Classifier (§3 AttemptRecord, §4.3). -/
inductive Durability where
  | durable
  | bounced
  | pending
  deriving DecidableEq, Inhabited

/-- Modelled from the spec: AttemptRecord (§3) — an Attempt enriched
with its durability verdict. -/
structure AttemptRecord where
  entity_id : String
  date : ℕ
  status : Durability
  deriving DecidableEq, Inhabited

/-- Modelled from the spec: the maximum observed date in the ledger
(§4.3 edge policy), 0 for an empty ledger. -/
def maxEventDate (evs : List ClassifiedEvent) : ℕ :=
  (evs.map (fun c => c.date)).foldr max 0

/-- Modelled from the spec: the first observed date (§4.4 "from the
first to the last event date"). -/
def minEventDate (evs : List ClassifiedEvent) : ℕ :=
  (evs.map (fun c => c.date)).foldr min (maxEventDate evs)

/-- Modelled from the spec: the Reopen event dates of one entity,
scanned by the Durability Classifier (§4.3). -/
def reopenDates (evs : List ClassifiedEvent) (eid : String) : List ℕ :=
  (evs.filter (fun c => c.entity_id = eid ∧ c.kind = Kind.reopen)).map (fun c => c.date)

/-- Modelled from the spec: §4.3 — an attempt at date `d` is `pending`
when its horizon window `d+T` exceeds the maximum observed date
("insufficient future data", §7: "never silently resolved either
way"); otherwise it is `bounced` iff some Reopen of the same entity
falls in `(d, d+T]`, else `durable`. -/
def classifyAttempt (evs : List ClassifiedEvent) (maxDate T : ℕ) (eid : String) (d : ℕ) :
    Durability :=
  if maxDate < d + T then Durability.pending
  else if (reopenDates evs eid).any (fun r => d < r ∧ r ≤ d + T) then Durability.bounced
  else Durability.durable

/-- Modelled from the spec: `classify_durability(classified_events,
horizon_days T)` (§4.3) — every Attempt event becomes an AttemptRecord
with its verdict. -/
def classify_durability (evs : List ClassifiedEvent) (T : ℕ) : List AttemptRecord :=
  (evs.filter (fun c => c.kind = Kind.attempt)).map
    (fun a => ⟨a.entity_id, a.date, classifyAttempt evs (maxEventDate evs) T a.entity_id a.date⟩)

/-- Attempt count of day `d` (records keyed by the attempt's date,
§4.4). -/
def attemptsOn (recs : List AttemptRecord) (d : ℕ) : ℕ :=
  (recs.filter (fun r => r.date = d)).length

/-- Count of records on day `d` with a given verdict. -/
def statusOn (recs : List AttemptRecord) (d : ℕ) (s : Durability) : ℕ :=
  (recs.filter (fun r => r.date = d ∧ r.status = s)).length

/-- Durable count of day `d`. -/
def durableOn (recs : List AttemptRecord) (d : ℕ) : ℕ :=
  statusOn recs d Durability.durable

/-- Bounced count of day `d`. -/
def bouncedOn (recs : List AttemptRecord) (d : ℕ) : ℕ :=
  statusOn recs d Durability.bounced

/-- Pending count of day `d` (the separate diagnostics report required
by §4.3). -/
def pendingOn (recs : List AttemptRecord) (d : ℕ) : ℕ :=
  statusOn recs d Durability.pending

/-- Modelled from the spec: the per-entity single pass of the Entity
State Machine (§4.2) with its one-bit has-seen-arrival state: first
Accepted → Arrival, later Accepted → Reopen, every Completed →
Attempt. -/
def classifyEntity : Bool → List RawEvent → List ClassifiedEvent
  | _, [] => []
  | seen, e :: rest =>
    match e.event_type with
    | EventType.accepted =>
      ⟨e.entity_id, if seen then Kind.reopen else Kind.arrival, e.event_date⟩ ::
        classifyEntity true rest
    | EventType.completed =>
      ⟨e.entity_id, Kind.attempt, e.event_date⟩ :: classifyEntity seen rest

/-- Modelled from the spec: stable sort of one entity's events by date
(§4.2 "sorted by date (stable, input order as tie-break)"). -/
def sortByDate (evs : List RawEvent) : List RawEvent :=
  evs.mergeSort (fun a b => a.event_date ≤ b.event_date)

/-- Modelled from the spec: §4.2 — an entity whose first (date-sorted)
event is not Accepted has a Completed before any Arrival (or no
Accepted at all) and is excluded from counts. -/
def firstIsAccepted : List RawEvent → Bool
  | [] => false
  | e :: _ => decide (e.event_type = EventType.accepted)

/-- Distinct entity identifiers of a raw ledger. -/
def entityIds (evs : List RawEvent) : List String :=
  (evs.map (fun e => e.entity_id)).dedup

/-- Modelled from the spec: `classify(events)` (§4.2) — group by
entity, sort each group by date, drop inconsistent entities, classify
with the has-seen-arrival flag. -/
def classify (evs : List RawEvent) : List ClassifiedEvent :=
  (entityIds evs).flatMap (fun eid =>
    let sorted := sortByDate (evs.filter (fun e => e.entity_id = eid))
    if firstIsAccepted sorted then classifyEntity false sorted else [])

/-- Modelled from the spec: DailyBucket (§3). -/
structure DailyBucket where
  date : ℕ
  arrivals : ℕ
  attempts : ℕ
  reopens : ℕ
  durable : ℕ
  bounced : ℕ
  pending : ℕ
  deriving DecidableEq, Inhabited

/-- Count of classified events of one kind on one day. -/
def countKind (evs : List ClassifiedEvent) (k : Kind) (d : ℕ) : ℕ :=
  (evs.filter (fun c => c.kind = k ∧ c.date = d)).length

/-- Modelled from the spec: the Daily Aggregator (§4.4) — dense daily
buckets from the first to the last event date; arrivals/reopens
bucketed by their own date, durable/bounced/pending by the attempt's
date. -/
def aggregate (evs : List ClassifiedEvent) (recs : List AttemptRecord) : List DailyBucket :=
  (List.range (maxEventDate evs + 1 - minEventDate evs)).map (fun i =>
    let d := minEventDate evs + i
    ⟨d, countKind evs Kind.arrival d, countKind evs Kind.attempt d,
      countKind evs Kind.reopen d, durableOn recs d, bouncedOn recs d, pendingOn recs d⟩)

/-- Modelled from the spec: RollingWindowRow (§3). -/
structure RollingWindowRow where
  date : ℕ
  window_days : ℕ
  durable_sum : ℕ
  arrivals_sum : ℕ
  ratio_q : Option ℚ
  deriving DecidableEq

/-- Trailing inclusive window sum of one bucket field, ending at bucket
index `t`, over `W` days. -/
def windowSum (f : DailyBucket → ℕ) (buckets : List DailyBucket) (t W : ℕ) : ℕ :=
  ((List.range W).map (fun j => f (buckets.getD (t - j) default))).sum

/-- Modelled from the spec: one RollingWindowRow (§4.6) — the ratio is
null until `W` days of trailing history exist (day index `t` has `t+1`
days of inclusive history) and whenever the window's arrival sum is
zero. -/
def rollingRow (buckets : List DailyBucket) (W t : ℕ) : RollingWindowRow :=
  let durSum := windowSum (fun b => b.durable) buckets t W
  let arrSum := windowSum (fun b => b.arrivals) buckets t W
  { date := (buckets.getD t default).date
    window_days := W
    durable_sum := durSum
    arrivals_sum := arrSum
    ratio_q :=
      if t + 1 < W then none
      else if arrSum = 0 then none
      else some ((durSum : ℚ) / (arrSum : ℚ)) }

/-- Modelled from the spec: the Rolling-Window Aggregator (§4.6). -/
def rolling (buckets : List DailyBucket) (W : ℕ) : List RollingWindowRow :=
  (List.range buckets.length).map (rollingRow buckets W)

/-- One CSV line of the timeseries artifact. -/
def bucketLine (b : DailyBucket) : String :=
  toString b.date ++ "," ++ toString b.arrivals ++ "," ++ toString b.attempts ++ "," ++
    toString b.reopens ++ "," ++ toString b.durable ++ "," ++ toString b.bounced ++ "," ++
    toString b.pending

/-- Modelled from the spec: the Report Emitter's `timeseries.csv`
serialization (§4.7 — pure formatting, deterministic byte-for-byte). -/
def emitTimeseries (buckets : List DailyBucket) : String :=
  String.intercalate "\n"
    ("date,arrivals,attempts,reopens,durable,bounced,pending" :: buckets.map bucketLine)

/-- Modelled from the spec: the Report Emitter's `diagnostics.json`
content (§4.7, §6) — parameters used and pending-attempt counts by
day. -/
def emitDiagnostics (recs : List AttemptRecord) (T W : ℕ) (days : List ℕ) : String :=
  "horizon_days=" ++ toString T ++ ";window_days=" ++ toString W ++ ";pending_by_day=" ++
    String.intercalate "," (days.map (fun d => toString d ++ ":" ++ toString (pendingOn recs d)))

/-- Modelled from the spec: the whole engine as a pure function of
(ledger, horizon, window) to the two output artifacts (§3 lifecycle,
§5). -/
def runEngine (ledger : List RawEvent) (T W : ℕ) : String × String :=
  let evs := classify ledger
  let recs := classify_durability evs T
  let buckets := aggregate evs recs
  (emitTimeseries buckets, emitDiagnostics recs T W (buckets.map (fun b => b.date)))

/-! Concrete inputs used by witnesses and counterexamples. -/

/-- A sample dashboard point (week "W1"). -/
def pEx : Point :=
  { lambda := 1, mu_a := 17 / 2, q := 1 / 3, backlog := 4, week := "W1",
    drift := some 1, b_req := some 2, capacity := some 10 }

/-- A sample enriched point. -/
def mEx : MetricPoint := ⟨pEx, 2, 3, 4, 5, 6⟩

/-- A second sample enriched point. -/
def mEx2 : MetricPoint := ⟨pEx, 7, 8, 9, 10, 11⟩

/-- A two-point sample series. -/
def exSeries : List MetricPoint := [mEx, mEx2]

/-- Classified ledger: entity e arrives day 0 and completes day 1;
entity f arrives day 31, so the day-1 attempt's 30-day window closes
inside the data. -/
def exLedgerA : List ClassifiedEvent :=
  [⟨"e", Kind.arrival, 0⟩, ⟨"e", Kind.attempt, 1⟩, ⟨"f", Kind.arrival, 31⟩]

/-- Classified ledger ending on day 5: the day-5 attempt's window
extends beyond the data. -/
def exLedgerPend : List ClassifiedEvent :=
  [⟨"e", Kind.arrival, 0⟩, ⟨"e", Kind.attempt, 5⟩]

/-- Classified ledger: attempt on day 1, reopen on day 6, data ends
day 6 — bounced at horizon 5, pending at horizon 10. -/
def exLedgerMono : List ClassifiedEvent :=
  [⟨"e", Kind.arrival, 0⟩, ⟨"e", Kind.attempt, 1⟩, ⟨"e", Kind.reopen, 6⟩]

/-- Classified ledger whose data extends to day 20, so both horizons 5
and 10 close inside the data for the day-1 attempt. -/
def exLedgerWit : List ClassifiedEvent :=
  [⟨"e", Kind.arrival, 0⟩, ⟨"e", Kind.attempt, 1⟩, ⟨"f", Kind.arrival, 20⟩]

/-- A raw ledger for the end-to-end engine run. -/
def exRawLedger : List RawEvent :=
  [⟨"e", EventType.accepted, 0⟩, ⟨"e", EventType.completed, 1⟩,
   ⟨"f", EventType.accepted, 31⟩]

/-! Helper lemmas. -/

/-- Every attempt record has exactly one of the three verdicts, so the
three per-day counts partition the attempt count. -/
lemma statusOn_partition (recs : List AttemptRecord) (d : ℕ) :
    attemptsOn recs d = durableOn recs d + bouncedOn recs d + pendingOn recs d := by
  induction recs with
  | nil => rfl
  | cons r rs ih =>
    unfold attemptsOn durableOn bouncedOn pendingOn statusOn at *
    simp only [List.filter_cons, Bool.decide_and] at ih ⊢
    by_cases hd : r.date = d
    · cases hs : r.status <;> simp [hd, hs] <;> omega
    · simp [hd]
      omega

/-- Indexing into the non-degenerate branch of `buildDerivedSeries`. -/
lemma buildDerivedSeries_getD (raw : List MetricPoint) (hz per : ℚ) (i : ℕ)
    (hi : i < (buildDerivedSeries raw hz per).length) :
    (buildDerivedSeries raw hz per).getD i default =
      derivePoint raw (lagPeriodsOf hz per) i := by
  by_cases hc : raw.length = 0 ∨ per ≤ 0
  · rw [buildDerivedSeries, if_pos hc] at hi
    exact absurd hi (by simp)
  · rw [buildDerivedSeries, if_neg hc] at hi ⊢
    rw [List.getD_eq_getElem _ _ hi]
    simp

/-! Claim theorems. -/

/-- Claim C1: conservation identity.  For every day `d` of a
durability-classified ledger with zero pending attempts,
`attempts(d) = durable(d) + bounced(d)` exactly; and for every input
point of the dashboard, `computeSeriesMetrics` satisfies
`mu_d + return_work = mu_a` exactly. -/
theorem conservation_identity (evs : List ClassifiedEvent) (T d : ℕ) (p : Point)
    (hp : pendingOn (classify_durability evs T) d = 0) :
    attemptsOn (classify_durability evs T) d =
      durableOn (classify_durability evs T) d +
        bouncedOn (classify_durability evs T) d ∧
    (computeSeriesMetrics p).mu_d + (computeSeriesMetrics p).return_work = p.mu_a := by
  constructor
  · have h := statusOn_partition (classify_durability evs T) d
    omega
  · simp only [computeSeriesMetrics]
    ring

/-- Witness for C1 at a concrete ledger and point. -/
theorem conservation_identity_witness :
    pendingOn (classify_durability exLedgerA 30) 1 = 0 ∧
    (attemptsOn (classify_durability exLedgerA 30) 1 =
       durableOn (classify_durability exLedgerA 30) 1 +
         bouncedOn (classify_durability exLedgerA 30) 1 ∧
     (computeSeriesMetrics pEx).mu_d + (computeSeriesMetrics pEx).return_work = pEx.mu_a) :=
  ⟨by decide, conservation_identity exLedgerA 30 1 pEx (by decide)⟩

/-- Claim C2: pending edge policy.  Every attempt record whose horizon
window `date + T` exceeds the maximum observed date is classified
`pending` — never durable, never bounced — and on every day pending
attempts are excluded from the durable/bounced counts while being
reported in the separate pending count: the three counts sum to the
attempt count. -/
theorem pending_edge_policy (evs : List ClassifiedEvent) (T d : ℕ) (rec : AttemptRecord)
    (hmem : rec ∈ classify_durability evs T)
    (hbeyond : maxEventDate evs < rec.date + T) :
    rec.status = Durability.pending ∧
    durableOn (classify_durability evs T) d + bouncedOn (classify_durability evs T) d +
        pendingOn (classify_durability evs T) d =
      attemptsOn (classify_durability evs T) d := by
  constructor
  · obtain ⟨a, ha, rfl⟩ := List.mem_map.mp hmem
    simp only [classifyAttempt]
    rw [if_pos hbeyond]
  · have h := statusOn_partition (classify_durability evs T) d
    omega

/-- Witness for C2: the day-5 attempt of `exLedgerPend` at horizon 30. -/
theorem pending_edge_policy_witness :
    ((⟨"e", 5, Durability.pending⟩ : AttemptRecord) ∈ classify_durability exLedgerPend 30 ∧
      maxEventDate exLedgerPend < 5 + 30) ∧
    ((⟨"e", 5, Durability.pending⟩ : AttemptRecord).status = Durability.pending ∧
      durableOn (classify_durability exLedgerPend 30) 5 +
          bouncedOn (classify_durability exLedgerPend 30) 5 +
          pendingOn (classify_durability exLedgerPend 30) 5 =
        attemptsOn (classify_durability exLedgerPend 30) 5) :=
  ⟨⟨by decide, by decide⟩,
    pending_edge_policy exLedgerPend 30 5 ⟨"e", 5, Durability.pending⟩ (by decide) (by decide)⟩

/-- Claim C3: determinism / idempotence.  The engine and the dashboard
stages are pure functions: on identical inputs and parameters two runs
give identical outputs, including the byte-identical serialized
artifacts produced by `runEngine`. -/
theorem determinism (l1 l2 : List RawEvent) (T W : ℕ) (p1 p2 : Point)
    (raw1 raw2 : List MetricPoint) (hz per : ℚ)
    (hl : l1 = l2) (hp : p1 = p2) (hraw : raw1 = raw2) :
    runEngine l1 T W = runEngine l2 T W ∧
    computeSeriesMetrics p1 = computeSeriesMetrics p2 ∧
    buildDerivedSeries raw1 hz per = buildDerivedSeries raw2 hz per := by
  subst hl
  subst hp
  subst hraw
  exact ⟨rfl, rfl, rfl⟩

/-- Witness for C3 at a concrete ledger, point and series. -/
theorem determinism_witness :
    (exRawLedger = exRawLedger ∧ pEx = pEx ∧ exSeries = exSeries) ∧
    (runEngine exRawLedger 30 90 = runEngine exRawLedger 30 90 ∧
     computeSeriesMetrics pEx = computeSeriesMetrics pEx ∧
     buildDerivedSeries exSeries 30 7 = buildDerivedSeries exSeries 30 7) :=
  ⟨⟨rfl, rfl, rfl⟩,
    determinism exRawLedger exRawLedger 30 90 pEx pEx exSeries exSeries 30 7 rfl rfl rfl⟩

/-- Claim C4: null semantics of lagged/rolling values.  The rolling
ratio is null exactly when fewer than `W` days of trailing history
exist or the window's arrival sum is zero; and in
`buildDerivedSeries`, `mu_d_exit` and `cohort_week` are null exactly
when the lagged index `i - lagPeriods` is negative, i.e. when
`i < lagPeriodsOf`. -/
theorem null_until_history (buckets : List DailyBucket) (W t : ℕ)
    (raw : List MetricPoint) (hz per : ℚ) (i : ℕ)
    (hi : i < (buildDerivedSeries raw hz per).length) :
    ((rollingRow buckets W t).ratio_q = none ↔
      t + 1 < W ∨ windowSum (fun b => b.arrivals) buckets t W = 0) ∧
    (((buildDerivedSeries raw hz per).getD i default).mu_d_exit = none ↔
      i < lagPeriodsOf hz per) ∧
    (((buildDerivedSeries raw hz per).getD i default).cohort_week = none ↔
      i < lagPeriodsOf hz per) := by
  refine ⟨?_, ?_, ?_⟩
  · simp only [rollingRow]
    split_ifs <;> simp [*]
  · rw [buildDerivedSeries_getD raw hz per i hi]
    rcases Nat.lt_or_ge i (lagPeriodsOf hz per) with h | h
    · simp [derivePoint, Nat.not_le.mpr h, h]
    · simp [derivePoint, h, Nat.not_lt.mpr h]
  · rw [buildDerivedSeries_getD raw hz per i hi]
    rcases Nat.lt_or_ge i (lagPeriodsOf hz per) with h | h
    · simp [derivePoint, Nat.not_le.mpr h, h]
    · simp [derivePoint, h, Nat.not_lt.mpr h]

/-- Witness for C4 at concrete buckets, series and index. -/
theorem null_until_history_witness :
    0 < (buildDerivedSeries exSeries 30 7).length ∧
    (((rollingRow [] 90 0).ratio_q = none ↔
        0 + 1 < 90 ∨ windowSum (fun b => b.arrivals) [] 0 90 = 0) ∧
     (((buildDerivedSeries exSeries 30 7).getD 0 default).mu_d_exit = none ↔
        0 < lagPeriodsOf 30 7) ∧
     (((buildDerivedSeries exSeries 30 7).getD 0 default).cohort_week = none ↔
        0 < lagPeriodsOf 30 7)) := by
  have hlen : 0 < (buildDerivedSeries exSeries 30 7).length := by
    norm_num [buildDerivedSeries, exSeries]
  exact ⟨hlen, null_until_history [] 90 0 exSeries 30 7 0 hlen⟩

/-- A durable verdict at a larger horizon forces a durable verdict at a
smaller one (the smaller window is within data and reopen-free). -/
lemma classifyAttempt_durable_mono (evs : List ClassifiedEvent) (m T T' : ℕ)
    (eid : String) (d : ℕ) (hT : T ≤ T')
    (h : classifyAttempt evs m T' eid d = Durability.durable) :
    classifyAttempt evs m T eid d = Durability.durable := by
  unfold classifyAttempt at h ⊢
  split at h
  · exact absurd h (by simp)
  next hp =>
    split at h
    · exact absurd h (by simp)
    next hb =>
      have h1 : ¬ m < d + T := fun hc => hp (by omega)
      rw [if_neg h1, if_neg]
      intro hc
      obtain ⟨r, hr, hrp⟩ := List.any_eq_true.mp hc
      simp only [decide_eq_true_eq] at hrp
      exact hb (List.any_eq_true.mpr ⟨r, hr, by simp only [decide_eq_true_eq]; omega⟩)

/-- A bounced verdict at a smaller horizon forces a bounced verdict at a
larger one, provided the larger window still closes inside the data. -/
lemma classifyAttempt_bounced_mono (evs : List ClassifiedEvent) (m T T' : ℕ)
    (eid : String) (d : ℕ) (hT : T ≤ T') (hin : d + T' ≤ m)
    (h : classifyAttempt evs m T eid d = Durability.bounced) :
    classifyAttempt evs m T' eid d = Durability.bounced := by
  unfold classifyAttempt at h ⊢
  have h1 : ¬ m < d + T' := by omega
  split at h
  · exact absurd h (by simp)
  next hp =>
    split at h
    next hb =>
      rw [if_neg h1, if_pos]
      obtain ⟨r, hr, hrp⟩ := List.any_eq_true.mp hb
      simp only [decide_eq_true_eq] at hrp
      exact List.any_eq_true.mpr ⟨r, hr, by simp only [decide_eq_true_eq]; omega⟩
    · exact absurd h (by simp)

/-- Per-day count comparison between two horizons, from a pointwise
implication on the verdict of each attempt. -/
lemma statusOn_classify_le (evs : List ClassifiedEvent) (A B d : ℕ) (s : Durability)
    (h : ∀ a : ClassifiedEvent, a ∈ evs.filter (fun c => c.kind = Kind.attempt) →
      a.date = d →
      classifyAttempt evs (maxEventDate evs) A a.entity_id a.date = s →
      classifyAttempt evs (maxEventDate evs) B a.entity_id a.date = s) :
    statusOn (classify_durability evs A) d s ≤ statusOn (classify_durability evs B) d s := by
  unfold statusOn classify_durability
  rw [← List.countP_eq_length_filter, ← List.countP_eq_length_filter,
      List.countP_map, List.countP_map]
  apply List.countP_mono_left
  intro a ha
  simp only [Function.comp_apply, decide_eq_true_eq]
  rintro ⟨hd, hs⟩
  exact ⟨hd, h a ha hd hs⟩

/-- Claim C5 is false as stated: on `exLedgerMono` (attempt day 1,
reopen day 6, data ends day 6), raising the horizon from 5 to 10 turns
the day-1 attempt from bounced into pending, so the bounced count
decreases, while the claim requires it never to decrease. -/
theorem horizon_monotonicity_counterexample :
    5 ≤ 10 ∧
    ¬ bouncedOn (classify_durability exLedgerMono 5) 1 ≤
        bouncedOn (classify_durability exLedgerMono 10) 1 := by decide

/-- Claim C5 amended: with the same ledger and horizons `T ≤ T'`, the
durable count at `T'` never exceeds the durable count at `T` on any
day; and on a day whose horizon window at `T'` still closes inside the
observed data (so its attempts are not pending at `T'`), the bounced
count at `T'` is at least the bounced count at `T`.  Without that
proviso a bounced attempt can become pending at the larger horizon and
leave the bounced count. -/
theorem horizon_monotonicity (evs : List ClassifiedEvent) (T T' d : ℕ) (hT : T ≤ T') :
    durableOn (classify_durability evs T') d ≤ durableOn (classify_durability evs T) d ∧
    (d + T' ≤ maxEventDate evs →
      bouncedOn (classify_durability evs T) d ≤ bouncedOn (classify_durability evs T') d) := by
  constructor
  · apply statusOn_classify_le
    intro a _ hd hs
    exact classifyAttempt_durable_mono evs (maxEventDate evs) T T' a.entity_id a.date hT hs
  · intro hin
    apply statusOn_classify_le
    intro a _ hd hs
    apply classifyAttempt_bounced_mono evs (maxEventDate evs) T T' a.entity_id a.date hT
    · omega
    · exact hs

/-- Witness for the amended C5 on a ledger whose data covers both
horizons. -/
theorem horizon_monotonicity_witness :
    (5 ≤ 10 ∧ 1 + 10 ≤ maxEventDate exLedgerWit) ∧
    (durableOn (classify_durability exLedgerWit 10) 1 ≤
       durableOn (classify_durability exLedgerWit 5) 1 ∧
     bouncedOn (classify_durability exLedgerWit 5) 1 ≤
       bouncedOn (classify_durability exLedgerWit 10) 1) :=
  ⟨⟨by decide, by decide⟩,
    (horizon_monotonicity exLedgerWit 5 10 1 (by decide)).1,
    (horizon_monotonicity exLedgerWit 5 10 1 (by decide)).2 (by decide)⟩

/-- Claim C6: no in-place mutation between stages.  Each stage is a
pure function of its input: `computeSeriesMetrics` returns a fresh
record whose `base` carries every field of the input point unmodified,
and each element of `buildDerivedSeries`'s output carries the
corresponding input element unmodified in its `base`. -/
theorem no_mutation (p : Point) (raw : List MetricPoint) (hz per : ℚ) (i : ℕ)
    (hi : i < (buildDerivedSeries raw hz per).length) :
    (computeSeriesMetrics p).base = p ∧
    ((buildDerivedSeries raw hz per).getD i default).base = raw.getD i default := by
  refine ⟨rfl, ?_⟩
  rw [buildDerivedSeries_getD raw hz per i hi]
  rfl

/-- Witness for C6 at a concrete point and series. -/
theorem no_mutation_witness :
    0 < (buildDerivedSeries exSeries 30 7).length ∧
    ((computeSeriesMetrics pEx).base = pEx ∧
     ((buildDerivedSeries exSeries 30 7).getD 0 default).base = exSeries.getD 0 default) := by
  have hlen : 0 < (buildDerivedSeries exSeries 30 7).length := by
    norm_num [buildDerivedSeries, exSeries]
  exact ⟨hlen, no_mutation pEx exSeries 30 7 0 hlen⟩

/-- Claim C7 is false as stated: the dashboard does apply silent
fallback defaults.  A payload that explicitly supplies
`horizon_days = 0` gets 30 (JS `|| 30`), and an explicitly supplied
period of 0 gets 1 (`|| 1`), neither recorded anywhere. -/
theorem explicit_params_counterexample :
    loadHorizonDays (some 0) = 30 ∧ ¬ loadHorizonDays (some 0) = 0 ∧
    usedPeriodDays (some 0) = 1 ∧ ¬ usedPeriodDays (some 0) = 0 := by
  norm_num [loadHorizonDays, usedPeriodDays]

/-- Claim C7 amended: a supplied truthy (nonzero) horizon or period is
used unchanged, but a missing or zero value is silently replaced by
the fallbacks of `src/app/app.js` — 30 in `loadSampleData`,
`state.horizonDays` and 1 in `recomputeAndRender` — without being
recorded in any diagnostics. -/
theorem explicit_params (v s : ℚ) (hv : v ≠ 0) :
    loadHorizonDays (some v) = v ∧ usedHorizonDays (some v) s = v ∧
    usedPeriodDays (some v) = v ∧
    loadHorizonDays none = 30 ∧ usedHorizonDays none s = s ∧ usedPeriodDays none = 1 ∧
    loadHorizonDays (some 0) = 30 ∧ usedHorizonDays (some 0) s = s ∧
    usedPeriodDays (some 0) = 1 := by
  simp [loadHorizonDays, usedHorizonDays, usedPeriodDays, hv]

/-- Witness for the amended C7 at `v = 5`, `s = 12`. -/
theorem explicit_params_witness :
    (5:ℚ) ≠ 0 ∧
    (loadHorizonDays (some 5) = 5 ∧ usedHorizonDays (some 5) 12 = 5 ∧
     usedPeriodDays (some 5) = 5 ∧
     loadHorizonDays none = 30 ∧ usedHorizonDays none 12 = 12 ∧ usedPeriodDays none = 1 ∧
     loadHorizonDays (some 0) = 30 ∧ usedHorizonDays (some 0) 12 = 12 ∧
     usedPeriodDays (some 0) = 1) :=
  ⟨by norm_num, explicit_params 5 12 (by norm_num)⟩

/-- Claim C8 is false as stated for the input `null`: JS `Number(null)`
is 0, which is finite, so the new `formatNumber` renders "0" for
`null` rather than the claimed placeholder '—'. -/
theorem format_number_counterexample :
    formatNumber JSVal.nullV = "0" ∧ formatNumber JSVal.nullV ≠ "—" := by
  have hfl : ⌊(0:ℚ) * 10 + 1 / 2⌋ = 0 := by
    rw [Int.floor_eq_iff]
    norm_num
  have ht : toFixed1 (NumV.fin 0) = "0.0" := by
    simp only [toFixed1]
    rw [if_neg (by norm_num : ¬ (0:ℚ) < 0), hfl]
    decide
  have h0 : formatNumber JSVal.nullV = "0" := by
    simp only [formatNumber, jsNumber, isFiniteN, if_true, ht]
    decide
  exact ⟨h0, by rw [h0]; decide⟩

/-- Claim C8 amended: for every input whose `Number` conversion is not
finite (NaN, ±Infinity, `undefined`, a non-numeric string — but not
`null`, which converts to 0), `formatNumber` returns '—'; the older
copy in `src/unnamed/part_000` lacks the guard and, whenever its
`parseFloat` conversion is non-finite, renders "NaN"/"Infinity"
instead of '—'. -/
theorem format_number_totality (v : JSVal)
    (hv : isFiniteN (jsNumber v) = false) :
    formatNumber v = "—" ∧
    (isFiniteN (jsParseFloat v) = false → formatNumberOld v ≠ "—") := by
  constructor
  · simp [formatNumber, hv]
  · intro hv2
    cases hp : jsParseFloat v with
    | fin q => rw [hp] at hv2; simp [isFiniteN] at hv2
    | nanR => simp only [formatNumberOld]; rw [hp]; decide
    | infR => simp only [formatNumberOld]; rw [hp]; decide
    | ninfR => simp only [formatNumberOld]; rw [hp]; decide

/-- Witness for the amended C8 at the input `undefined`. -/
theorem format_number_totality_witness :
    isFiniteN (jsNumber JSVal.undefV) = false ∧
    (formatNumber JSVal.undefV = "—" ∧
     (isFiniteN (jsParseFloat JSVal.undefV) = false → formatNumberOld JSVal.undefV ≠ "—")) :=
  ⟨by decide, format_number_totality JSVal.undefV (by decide)⟩

/-- Claim C9: clamped and guarded derived metrics.  For every input
point, `computeSeriesMetrics` yields `c_eff ≥ 0` and
`exceedance ≥ 0` (both `Math.max(0, ...)`), and a missing or zero
`b_req` yields `mu_bar = 0` with no division performed; likewise for
the clamps and the `bReq > 0` division guard of
`updateSummaryFromInputs`. -/
theorem clamped_metrics (p : Point)
    (capacity drift bReq attempted durability lambda : ℚ) :
    0 ≤ (computeSeriesMetrics p).c_eff ∧
    0 ≤ (computeSeriesMetrics p).exceedance ∧
    (computeSeriesMetrics { p with b_req := none }).mu_bar = 0 ∧
    (computeSeriesMetrics { p with b_req := some 0 }).mu_bar = 0 ∧
    0 ≤ (updateSummaryCore capacity drift bReq attempted durability lambda).c_eff ∧
    0 ≤ (updateSummaryCore capacity drift bReq attempted durability lambda).exceedance ∧
    (updateSummaryCore capacity drift 0 attempted durability lambda).bound = 0 := by
  refine ⟨le_max_left 0 _, le_max_left 0 _, ?_, ?_, le_max_left 0 _, le_max_left 0 _, ?_⟩
  · simp [computeSeriesMetrics]
  · simp [computeSeriesMetrics]
  · norm_num [updateSummaryCore]

/-- Claim C10: shape and minimum lag of `buildDerivedSeries`.  An empty
series or non-positive `periodDays` gives `[]`; otherwise the output
has the input's length, the lag is `max(1, ceil(horizonDays /
periodDays))` and is at least 1, and a defined `mu_d_exit` is always
taken from the strictly earlier index `i - lag`. -/
theorem derived_series_shape (raw raw2 : List MetricPoint)
    (hz hz2 per per2 : ℚ) (i : ℕ)
    (hper2 : per2 ≤ 0) (hraw : raw ≠ []) (hper : 0 < per)
    (hi : i < (buildDerivedSeries raw hz per).length) :
    buildDerivedSeries [] hz2 per = [] ∧
    buildDerivedSeries raw2 hz2 per2 = [] ∧
    (buildDerivedSeries raw hz per).length = raw.length ∧
    1 ≤ lagPeriodsOf hz per ∧
    ((buildDerivedSeries raw hz per).getD i default).mu_d_exit =
      (if lagPeriodsOf hz per ≤ i then
        some ((raw.getD (i - lagPeriodsOf hz per) default).mu_d)
       else none) ∧
    (lagPeriodsOf hz per ≤ i → i - lagPeriodsOf hz per < i) := by
  have hc : ¬ (raw.length = 0 ∨ per ≤ 0) := by
    rintro (h0 | hneg)
    · exact hraw (List.length_eq_zero.mp h0)
    · exact absurd hper (not_lt.mpr hneg)
  have hlag : 1 ≤ lagPeriodsOf hz per := by
    simp [lagPeriodsOf]
  refine ⟨?_, ?_, ?_, hlag, ?_, ?_⟩
  · simp [buildDerivedSeries]
  · rw [buildDerivedSeries, if_pos (Or.inr hper2)]
  · rw [buildDerivedSeries, if_neg hc]
    simp
  · rw [buildDerivedSeries_getD raw hz per i hi]
    rfl
  · intro hle
    omega

/-- Witness for C10 at `exSeries`, horizon 0, period 7, index 1 (lag is
forced up to 1, so the exit value comes from index 0). -/
theorem derived_series_shape_witness :
    ((-1:ℚ) ≤ 0 ∧ exSeries ≠ [] ∧ (0:ℚ) < 7 ∧
      1 < (buildDerivedSeries exSeries 0 7).length) ∧
    (buildDerivedSeries [] 5 7 = [] ∧
     buildDerivedSeries exSeries 5 (-1) = [] ∧
     (buildDerivedSeries exSeries 0 7).length = exSeries.length ∧
     1 ≤ lagPeriodsOf 0 7 ∧
     ((buildDerivedSeries exSeries 0 7).getD 1 default).mu_d_exit =
       (if lagPeriodsOf 0 7 ≤ 1 then
         some ((exSeries.getD (1 - lagPeriodsOf 0 7) default).mu_d)
        else none) ∧
     (lagPeriodsOf 0 7 ≤ 1 → 1 - lagPeriodsOf 0 7 < 1)) := by
  have h1 : ((-1:ℚ) ≤ 0) := by norm_num
  have h2 : exSeries ≠ [] := by simp [exSeries]
  have h3 : (0:ℚ) < 7 := by norm_num
  have h4 : 1 < (buildDerivedSeries exSeries 0 7).length := by
    norm_num [buildDerivedSeries, exSeries]
  exact ⟨⟨h1, h2, h3, h4⟩, derived_series_shape exSeries exSeries 0 5 7 (-1) 1 h1 h2 h3 h4⟩

end OCC
